import Mathlib

/-!
Verification development for the spectroscopy sample store
(script.py and plotting.py).

The program keeps samples in an HDF5 container: a root group named
samples whose children are sample groups keyed by timestamp, each
holding numeric datasets (Wavelengths, and either Absorption plus
Transmission or Intensities) and string attributes including Timestamp.

Shallow embedding choices:
- Numeric readings are modelled as exact integers (abbrev Value); no
  claim under consideration performs arithmetic on the stored floats,
  so the cast to float in the source is modelled as the identity.
- A pandas row is modelled by its designated time cell (absent when the
  time column is missing) and an association list of channel cells;
  indexing a missing column raises KeyError, modelled by Err.keyError.
- Console input is an explicit list of lines; the input builtin at end
  of stream raises EOFError, modelled by Err.eof.
- The h5py file handle is opened per call; mutations persist even when
  an exception propagates out of the with-block, so the embedding
  returns the final store together with an optional uncaught error.
-/

/-- Numeric cell or dataset value. The source stores numpy floats; no
claim depends on floating-point behaviour, so values are modelled
exactly. -/
abbrev Value := Int

/-- ASCII whitespace, the characters the strip builtin removes on the
inputs this program sees. -/
def isSpaceChar (c : Char) : Bool :=
  c == ' ' || c == '\t' || c == '\n' || c == '\r' || c == '\x0b' || c == '\x0c'

/-- The strip method of Python strings: remove leading and trailing
whitespace. Modelled on the character list so that it evaluates inside
proofs. -/
def pyStrip (s : String) : String :=
  String.mk (((s.data.dropWhile isSpaceChar).reverse.dropWhile isSpaceChar).reverse)

/-- The lower method of Python strings, on the ASCII range this program
compares against. -/
def pyLower (s : String) : String :=
  String.mk (s.data.map Char.toLower)

/-- Uncaught Python exceptions that the modelled code can raise:
KeyError from indexing a missing column or attribute, and EOFError from
reading console input at end of stream. -/
inductive Err where
  | keyError (key : String)
  | eof
  deriving DecidableEq, Repr

/-- One pandas row, restricted to the columns the code reads: the time
cell (none when the time column is missing from the CSV) and the named
channel cells. -/
structure Row where
  time : Option String
  channels : List (String × Value)
  deriving DecidableEq, Repr

/-- Indexing a row by column name: returns the cell or raises KeyError,
as pandas does. -/
def rowGet (r : Row) (c : String) : Except Err Value :=
  match r.channels.find? (fun p => p.1 == c) with
  | some p => Except.ok p.2
  | none => Except.error (Err.keyError c)

/-- One sample group under the samples root group. Each dataset is
optional so that partially written groups are representable; the
atomicity claims prove ingestion never produces one. The attrs field
holds the string attributes (Timestamp and user metadata). -/
structure Sample where
  wavelengths : Option (List Value)
  absorption : Option (List Value)
  transmission : Option (List Value)
  intensities : Option (List Value)
  attrs : List (String × String)
  deriving DecidableEq, Repr

/-- The samples root group: child groups in creation order. -/
abbrev Store := List (String × Sample)

/-- The HDF5 container file: the samples root group, or none when the
file exists but the group was never created. -/
structure H5File where
  samples : Option Store
  deriving DecidableEq, Repr

def storeKeys (store : Store) : List String := store.map Prod.fst

def storeHasKey (store : Store) (k : String) : Bool :=
  store.any (fun p => p.1 == k)

def storeGet (store : Store) (k : String) : Option Sample :=
  (store.find? (fun p => p.1 == k)).map Prod.snd

/-- Attribute lookup on an h5py attrs mapping. -/
def attrsGet (attrs : List (String × String)) (k : String) : Option String :=
  (attrs.find? (fun p => p.1 == k)).map Prod.snd

/-- Attribute assignment on an h5py attrs mapping: overwrite when the
key exists, append otherwise. -/
def attrsSet (attrs : List (String × String)) (k v : String) :
    List (String × String) :=
  if attrs.any (fun p => p.1 == k) then
    attrs.map (fun p => if p.1 == k then (k, v) else p)
  else
    attrs ++ [(k, v)]

/-- AS7341_WAVELENGTHS from script.py line 14. -/
def AS7341_WAVELENGTHS : List Value :=
  [415, 445, 480, 515, 555, 590, 630, 680, 850, 940]

/-- The ten channel columns read for one AS7341 row, in the order the
source indexes them (script.py lines 65 to 69). -/
def AS7341_CHANNELS : List String :=
  ["415nm_F1", "445nm_F2", "480nm_F3", "515nm_F4",
   "555nm_F5", "590nm_F6", "630nm_F7", "680nm_F8",
   "CLEAR", "NIR"]

/-- Reads the given columns of a row left to right, as the np.array
argument list is evaluated; the first missing column raises KeyError. -/
def getChannels (r : Row) : List String → Except Err (List Value)
  | [] => Except.ok []
  | c :: cs =>
    match rowGet r c with
    | Except.error e => Except.error e
    | Except.ok v =>
      match getChannels r cs with
      | Except.error e => Except.error e
      | Except.ok vs => Except.ok (v :: vs)

/-- The intensities array built for one AS7341 row. -/
def extractIntensities (r : Row) : Except Err (List Value) :=
  getChannels r AS7341_CHANNELS

/-- The interactive key and value loop of add_metadata (script.py lines
88 to 95). Each accepted pair is written immediately; an empty key ends
the loop; reading past the end of the input stream raises EOFError,
with the pairs already written kept. Returns the attrs after the pairs
written so far, the remaining input, and the uncaught error if any. -/
def metadataLoop :
    List (String × String) → List String →
    List (String × String) × List String × Option Err
  | attrs, [] => (attrs, [], some Err.eof)
  | attrs, key :: rest =>
    if pyStrip key == "" then
      (attrs, rest, none)
    else
      match rest with
      | [] => (attrs, [], some Err.eof)
      | value :: rest2 =>
        metadataLoop (attrsSet attrs (pyStrip key) (pyStrip value)) rest2

/-- add_metadata (script.py lines 83 to 97): asks a yes or no question;
on yes runs the key and value loop and returns true, otherwise returns
false. Result: attrs after the call, remaining input, the returned
flag, and the uncaught error if any (the flag is meaningless when an
error is raised, since the source never returns then). -/
def add_metadata (attrs : List (String × String)) (stdin : List String) :
    List (String × String) × List String × Bool × Option Err :=
  match stdin with
  | [] => (attrs, [], false, some Err.eof)
  | ans :: rest =>
    if pyLower (pyStrip ans) == "y" then
      match metadataLoop attrs rest with
      | (attrs2, rest2, e) => (attrs2, rest2, true, e)
    else
      (attrs, rest, false, none)

/-- What happened to one CSV row during ingestion: inserted (with the
flag add_metadata returned), skipped as a duplicate, or failed with an
uncaught exception. -/
inductive RowOutcome where
  | added (timestamp : String) (metaAdded : Bool)
  | skipped (timestamp : String)
  | failed (e : Err)
  deriving DecidableEq, Repr

/-- The mutable state of one add_samples_from_csv run: the live samples
group, the added_samples list, the metadata_updates flag, and the
remaining console input. -/
structure IngestState where
  store : Store
  added : List String
  meta : Bool
  stdin : List String
  deriving DecidableEq, Repr

/-- The body of the per-row loop of add_samples_from_csv (script.py
lines 56 to 79) for the AS7341 branch: derive the timestamp (KeyError
when the time column is missing), skip when the key already exists,
otherwise extract the ten channels (KeyError on a missing channel,
before any group is created), create the group with its Wavelengths and
Intensities datasets and Timestamp attribute, then run add_metadata.
An error inside add_metadata leaves the fully written group in the
store but neither appends the timestamp to added_samples nor updates
metadata_updates, as the exception propagates before those lines. -/
def processRow (st : IngestState) (r : Row) : IngestState × RowOutcome :=
  match r.time with
  | none => (st, RowOutcome.failed (Err.keyError "time"))
  | some timestamp =>
    if storeHasKey st.store timestamp then
      (st, RowOutcome.skipped timestamp)
    else
      match extractIntensities r with
      | Except.error e => (st, RowOutcome.failed e)
      | Except.ok intensities =>
        let sample : Sample :=
          { wavelengths := some AS7341_WAVELENGTHS
            absorption := none
            transmission := none
            intensities := some intensities
            attrs := [("Timestamp", timestamp)] }
        match add_metadata sample.attrs st.stdin with
        | (attrs2, stdin2, _, some e) =>
          ({ st with
              store := st.store ++ [(timestamp, { sample with attrs := attrs2 })]
              stdin := stdin2 },
           RowOutcome.failed e)
        | (attrs2, stdin2, metaAdded, none) =>
          ({ store := st.store ++ [(timestamp, { sample with attrs := attrs2 })]
             added := st.added ++ [timestamp]
             meta := st.meta || metaAdded
             stdin := stdin2 },
           RowOutcome.added timestamp metaAdded)

/-- The per-row loop over one CSV file: an uncaught error aborts the
loop (there is no try around the body), leaving later rows
unprocessed. -/
def processRows (st : IngestState) :
    List Row → IngestState × List RowOutcome × Option Err
  | [] => (st, [], none)
  | r :: rs =>
    match processRow st r with
    | (st2, RowOutcome.failed e) => (st2, [RowOutcome.failed e], some e)
    | (st2, out) =>
      match processRows st2 rs with
      | (st3, outs, e) => (st3, out :: outs, e)

/-- One iteration of the per-file loop: rows are processed only when
data_type is the string 3 (the AS7341 branch); every other data_type
leaves the state untouched. -/
def processFile (dataType : String) (st : IngestState) (rows : List Row) :
    IngestState × List RowOutcome × Option Err :=
  if dataType == "3" then processRows st rows else (st, [], none)

/-- The per-file loop of add_samples_from_csv; an uncaught error aborts
the whole loop. -/
def processFiles (dataType : String) (st : IngestState) :
    List (List Row) → IngestState × List RowOutcome × Option Err
  | [] => (st, [], none)
  | f :: fs =>
    match processFile dataType st f with
    | (st2, outs, some e) => (st2, outs, some e)
    | (st2, outs, none) =>
      match processFiles dataType st2 fs with
      | (st3, outs2, e) => (st3, outs ++ outs2, e)

/-- What one add_samples_from_csv call leaves behind: the container
file after the with-block closes (persisted even when an exception
propagates), the added_samples and metadata_updates return values, the
remaining console input, and the uncaught error if any (when an error
is raised the source returns nothing and the return fields are
meaningless). -/
structure IngestReturn where
  file : H5File
  added : List String
  metadataUpdates : Bool
  stdinRest : List String
  error : Option Err
  deriving DecidableEq, Repr

/-- The samples group of an optional container file, as seen after
open in append mode plus the ensure-group step: an absent file or
absent group reads as the empty group. -/
def storeOfFile (file : Option H5File) : Store :=
  match file with
  | none => []
  | some f => f.samples.getD []

/-- add_samples_from_csv (script.py lines 42 to 81): opens the file in
append mode (creating it when missing), ensures the samples group
exists, loops over the CSV files and their rows, and returns the
added_samples list and metadata_updates flag. -/
def add_samples_from_csv (csvFiles : List (List Row)) (file : Option H5File)
    (dataType : String) (stdin : List String) : IngestReturn :=
  let st0 : IngestState :=
    { store := storeOfFile file, added := [], meta := false, stdin := stdin }
  match processFiles dataType st0 csvFiles with
  | (st, _, e) =>
    { file := { samples := some st.store }
      added := st.added
      metadataUpdates := st.meta
      stdinRest := st.stdin
      error := e }

/-- list_samples (plotting.py lines 22 to 32): an absent database file
or an absent samples group yields the empty list, otherwise the sample
keys in the enumeration order of the group. -/
def list_samples (file : Option H5File) : List String :=
  match file with
  | none => []
  | some f =>
    match f.samples with
    | none => []
    | some store => storeKeys store

/-- What view_samples prints for one sample: the Timestamp attribute,
the wavelengths when the dataset exists, absorption and transmission
when both datasets exist, intensities when that dataset exists, and the
whole metadata mapping. -/
structure ViewEntry where
  timestamp : String
  wavelengths : Option (List Value)
  absorptionTransmission : Option (List Value × List Value)
  intensities : Option (List Value)
  metadata : List (String × String)
  deriving DecidableEq, Repr

/-- The body of the per-sample loop of view_samples (script.py lines
114 to 137): indexing the metadata mapping raises KeyError when the
Timestamp attribute is absent; each dataset is printed only after an
existence check. -/
def viewSample (s : Sample) : Except Err ViewEntry :=
  match attrsGet s.attrs "Timestamp" with
  | none => Except.error (Err.keyError "Timestamp")
  | some ts =>
    Except.ok
      { timestamp := ts
        wavelengths := s.wavelengths
        absorptionTransmission :=
          match s.absorption, s.transmission with
          | some a, some t => some (a, t)
          | _, _ => none
        intensities := s.intensities
        metadata := s.attrs }

/-- The per-sample loop of view_samples over the whole samples group;
an uncaught KeyError aborts the loop. -/
def viewLoop : Store → Except Err (List ViewEntry)
  | [] => Except.ok []
  | p :: ps =>
    match viewSample p.2 with
    | Except.error e => Except.error e
    | Except.ok v =>
      match viewLoop ps with
      | Except.error e => Except.error e
      | Except.ok vs => Except.ok (v :: vs)

/-- view_samples (script.py lines 99 to 137): an absent database file
or an absent samples group prints a notice and displays nothing,
otherwise every sample is displayed in enumeration order. -/
def view_samples (file : Option H5File) : Except Err (List ViewEntry) :=
  match file with
  | none => Except.ok []
  | some f =>
    match f.samples with
    | none => Except.ok []
    | some store => viewLoop store

/-- One plotted series of plot_samples: the legend label and the
arrays handed to ax.plot. -/
structure PlotSeries where
  label : String
  wavelengths : List Value
  absorption : List Value
  deriving DecidableEq, Repr

/-- The per-key loop of plot_samples (plotting.py lines 45 to 58): a
key absent from the file is reported with a warning and skipped; for a
present key the Wavelengths and Absorption datasets are read
unconditionally, raising KeyError when one is absent, which aborts the
whole call. -/
def plotLoop (store : Store) : List String → Except Err (List PlotSeries)
  | [] => Except.ok []
  | key :: rest =>
    match storeGet store key with
    | none => plotLoop store rest
    | some s =>
      match s.wavelengths with
      | none => Except.error (Err.keyError "Wavelengths")
      | some w =>
        match s.absorption with
        | none => Except.error (Err.keyError "Absorption")
        | some a =>
          match plotLoop store rest with
          | Except.error e => Except.error e
          | Except.ok l =>
            Except.ok ({ label := key, wavelengths := w, absorption := a } :: l)

/-- plot_samples (plotting.py lines 34 to 83): an absent database file
prints a notice and shows no figure (modelled as none); otherwise the
selected keys are plotted in order (a missing samples group simply
makes every key a missing key). -/
def plot_samples (file : Option H5File) (selected : List String) :
    Option (Except Err (List PlotSeries)) :=
  match file with
  | none => none
  | some f => some (plotLoop (f.samples.getD []) selected)

/-! Observers and invariants used by the theorems. -/

/-- Whether an attrs mapping carries the given key. -/
def attrsHas (attrs : List (String × String)) (k : String) : Bool :=
  attrs.any (fun p => p.1 == k)

/-- The length invariant of the spec: every signal array present in a
sample has the same length as the wavelengths axis. -/
def sampleLenOK (s : Sample) : Bool :=
  let wlen := (s.wavelengths.getD []).length
  (match s.absorption with
   | none => true
   | some a => a.length == wlen) &&
  (match s.transmission with
   | none => true
   | some t => t.length == wlen) &&
  (match s.intensities with
   | none => true
   | some i => i.length == wlen)

/-- The atomicity invariant of the spec: a sample group holds its
Wavelengths dataset, at least one complete signal variant, and the
Timestamp attribute. -/
def sampleComplete (s : Sample) : Bool :=
  s.wavelengths.isSome &&
  (s.intensities.isSome || (s.absorption.isSome && s.transmission.isSome)) &&
  attrsHas s.attrs "Timestamp"

/-- The shape of every sample group that the AS7341 ingestion branch
writes: the fixed wavelength table, an intensities array, no
spectrophotometer datasets, and the attrs left by add_metadata. -/
def ingestedSample (i : List Value)
    (attrs2 : List (String × String)) : Sample :=
  { wavelengths := some AS7341_WAVELENGTHS
    absorption := none
    transmission := none
    intensities := some i
    attrs := attrs2 }

/-- The timestamps of the rows an outcome trace reports as inserted, in
processing order. -/
def addedOfOutcomes (outs : List RowOutcome) : List String :=
  outs.filterMap fun o =>
    match o with
    | RowOutcome.added ts _ => some ts
    | _ => none

/-- Whether an outcome trace contains a row whose add_metadata call
reported an addition. -/
def anyMetaAdded (outs : List RowOutcome) : Bool :=
  outs.any fun o =>
    match o with
    | RowOutcome.added _ b => b
    | _ => false

/-- The row outcome trace of one add_samples_from_csv call. -/
def ingestTrace (csvFiles : List (List Row)) (file : Option H5File)
    (dataType : String) (stdin : List String) : List RowOutcome :=
  (processFiles dataType
    { store := storeOfFile file, added := [], meta := false, stdin := stdin }
    csvFiles).2.1

/-! Concrete fixtures used by witnesses and counterexamples. -/

/-- A well formed AS7341 CSV row for the given timestamp, with channel
readings one to ten. -/
def exRow (ts : String) : Row :=
  { time := some ts
    channels :=
      [("415nm_F1", 1), ("445nm_F2", 2), ("480nm_F3", 3), ("515nm_F4", 4),
       ("555nm_F5", 5), ("590nm_F6", 6), ("630nm_F7", 7), ("680nm_F8", 8),
       ("CLEAR", 9), ("NIR", 10)] }

/-- The sample group that ingesting exRow with no metadata writes. -/
def exSample (ts : String) : Sample :=
  { wavelengths := some AS7341_WAVELENGTHS
    absorption := none
    transmission := none
    intensities := some [1, 2, 3, 4, 5, 6, 7, 8, 9, 10]
    attrs := [("Timestamp", ts)] }

/-- A row whose required channel columns are all missing. -/
def exBadRow : Row := { time := some "B1", channels := [] }

/-- An ingest state over the singleton store holding exSample T1. -/
def exState : IngestState :=
  { store := [("T1", exSample "T1")], added := [], meta := false, stdin := ["n"] }


/-- A key reported absent by storeHasKey is not among the store keys. -/
theorem storeHasKey_false_iff (store : Store) (k : String) :
    storeHasKey store k = false ↔ k ∉ storeKeys store := by
  rw [← Bool.not_eq_true]
  simp [storeHasKey, storeKeys, List.any_eq_true]

/-- Key lookup fails exactly when the membership test fails. -/
theorem storeGet_none_iff (store : Store) (k : String) :
    storeGet store k = none ↔ storeHasKey store k = false := by
  simp [storeGet, storeHasKey, List.find?_eq_none, List.any_eq_true]

/-- Attribute assignment never removes a key that is present. -/
theorem attrsHas_attrsSet_mono (attrs : List (String × String)) (k k2 v : String)
    (h : attrsHas attrs k = true) : attrsHas (attrsSet attrs k2 v) k = true := by
  unfold attrsSet
  split
  · simp only [attrsHas, List.any_map]
    simp only [attrsHas] at h
    rw [List.any_eq_true] at h ⊢
    obtain ⟨p, hp, hpk⟩ := h
    refine ⟨p, hp, ?_⟩
    by_cases hk2 : p.1 = k2
    · have hb : (p.1 == k2) = true := beq_iff_eq.mpr hk2
      rw [beq_iff_eq] at hpk
      simp [Function.comp, hb, ← hk2, hpk]
    · have hb : (p.1 == k2) = false := by simp [hk2]
      simp [Function.comp, hb]
      exact beq_iff_eq.mp hpk
  · simp only [attrsHas] at h
    simp [attrsHas, List.any_append, h]

/-- The metadata loop never removes a key that is present, even when it
stops on end of input. -/
theorem attrsHas_metadataLoop_mono (attrs : List (String × String))
    (stdin : List String) (k : String) (h : attrsHas attrs k = true) :
    attrsHas (metadataLoop attrs stdin).1 k = true := by
  induction attrs, stdin using metadataLoop.induct with
  | case1 attrs => simpa [metadataLoop] using h
  | case2 attrs key rest hkey =>
    rw [metadataLoop.eq_def]
    simpa [hkey] using h
  | case3 attrs key hkey => simpa [metadataLoop, hkey] using h
  | case4 attrs key hkey value rest2 ih =>
    rw [metadataLoop.eq_def]
    simp only [hkey, if_false]
    exact ih (attrsHas_attrsSet_mono attrs k (pyStrip key) (pyStrip value) h)

/-- add_metadata never removes a key that is present. -/
theorem attrsHas_add_metadata_mono (attrs : List (String × String))
    (stdin : List String) (k : String) (h : attrsHas attrs k = true) :
    attrsHas (add_metadata attrs stdin).1 k = true := by
  unfold add_metadata
  match stdin with
  | [] => simpa using h
  | ans :: rest =>
    by_cases hy : (pyLower (pyStrip ans) == "y") = true
    · simp only [hy, if_true]
      exact attrsHas_metadataLoop_mono attrs rest k h
    · simp only [hy]
      simpa using h

/-- A successful channel extraction yields one value per column. -/
theorem getChannels_ok_length (r : Row) (cs : List String) (l : List Value)
    (h : getChannels r cs = Except.ok l) : l.length = cs.length := by
  induction cs generalizing l with
  | nil =>
    simp [getChannels] at h
    simp [← h]
  | cons c cs ih =>
    unfold getChannels at h
    split at h
    · exact absurd h (by simp)
    · split at h
      · exact absurd h (by simp)
      · rename_i vs hvs
        simp at h
        simp [← h, ih vs hvs]

/-- A skipped outcome leaves the ingest state untouched. -/
theorem processRow_skipped (st : IngestState) (r : Row) (st2 : IngestState)
    (ts : String) (h : processRow st r = (st2, RowOutcome.skipped ts)) :
    st2 = st := by
  simp only [processRow] at h
  split at h
  · simp_all
  · split at h
    · simp_all
    · split at h
      · simp_all
      · split at h
        · simp_all
        · simp_all

/-- An added outcome appends the key at the end of the store, appends
it to added_samples, ors the flag into metadata_updates, and can only
happen for a key that was absent. -/
theorem processRow_added (st : IngestState) (r : Row) (st2 : IngestState)
    (ts : String) (b : Bool) (h : processRow st r = (st2, RowOutcome.added ts b)) :
    storeKeys st2.store = storeKeys st.store ++ [ts] ∧
    st2.added = st.added ++ [ts] ∧
    st2.meta = (st.meta || b) ∧
    storeHasKey st.store ts = false := by
  simp only [processRow] at h
  split at h
  · simp_all
  · split at h
    · simp_all
    · split at h
      · simp_all
      · split at h
        · simp_all
        · simp only [Prod.mk.injEq, RowOutcome.added.injEq] at h
          obtain ⟨h1, hts, hb⟩ := h
          subst hts
          subst hb
          rw [← h1]
          refine ⟨by simp [storeKeys], rfl, rfl, by simp_all⟩

/-- A failed outcome never touches added_samples or metadata_updates:
the exception propagates before those assignments run. -/
theorem processRow_failed (st : IngestState) (r : Row) (st2 : IngestState)
    (e : Err) (h : processRow st r = (st2, RowOutcome.failed e)) :
    st2.added = st.added ∧ st2.meta = st.meta := by
  simp only [processRow] at h
  split at h
  · simp_all
  · split at h
    · simp_all
    · split at h
      · simp_all
      · split at h
        · simp only [Prod.mk.injEq, RowOutcome.failed.injEq] at h
          obtain ⟨h1, _⟩ := h
          rw [← h1]
          exact ⟨rfl, rfl⟩
        · simp_all

/-- Case analysis of the per-row body on the store: either the store is
unchanged, or exactly one fully formed AS7341 sample group is appended
under a previously absent key. -/
theorem processRow_store_cases (st : IngestState) (r : Row) :
    (processRow st r).1.store = st.store ∨
    ∃ ts i attrs2,
      r.time = some ts ∧ storeHasKey st.store ts = false ∧
      i.length = AS7341_CHANNELS.length ∧
      attrsHas attrs2 "Timestamp" = true ∧
      (processRow st r).1.store = st.store ++ [(ts, ingestedSample i attrs2)] := by
  simp only [processRow]
  split
  · left; rfl
  · rename_i timestamp htime
    split
    · left; rfl
    · rename_i hdup
      split
      · left; rfl
      · rename_i i hext
        have hts : attrsHas (add_metadata [("Timestamp", timestamp)] st.stdin).1
            "Timestamp" = true := by
          apply attrsHas_add_metadata_mono
          simp [attrsHas]
        have hlen : i.length = AS7341_CHANNELS.length := by
          apply getChannels_ok_length r
          simpa [extractIntensities] using hext
        rcases hmeta : add_metadata [("Timestamp", timestamp)] st.stdin with
          ⟨attrs2, stdin2, b, e⟩
        right
        refine ⟨timestamp, i, attrs2, htime, by simp_all, hlen, ?_, ?_⟩
        · rw [hmeta] at hts
          exact hts
        · cases e <;> simp [ingestedSample]

/-- Pointwise preservation through one row: any property that holds of
every stored pair and of every freshly ingested pair is kept. -/
theorem processRow_store_pres (Q : String × Sample → Prop)
    (hnew : ∀ ts i attrs2, i.length = AS7341_CHANNELS.length →
      attrsHas attrs2 "Timestamp" = true → Q (ts, ingestedSample i attrs2))
    (st : IngestState) (r : Row) (h : ∀ p ∈ st.store, Q p) :
    ∀ p ∈ (processRow st r).1.store, Q p := by
  rcases processRow_store_cases st r with hc | ⟨ts, i, attrs2, _, _, hlen, hts, hc⟩
  · rw [hc]; exact h
  · rw [hc]
    intro p hp
    rcases List.mem_append.mp hp with hp2 | hp2
    · exact h p hp2
    · have := List.mem_singleton.mp hp2
      subst this
      exact hnew ts i attrs2 hlen hts

/-- Pointwise preservation through the per-row loop. -/
theorem processRows_store_pres (Q : String × Sample → Prop)
    (hnew : ∀ ts i attrs2, i.length = AS7341_CHANNELS.length →
      attrsHas attrs2 "Timestamp" = true → Q (ts, ingestedSample i attrs2)) :
    ∀ (rows : List Row) (st : IngestState), (∀ p ∈ st.store, Q p) →
      ∀ p ∈ (processRows st rows).1.store, Q p := by
  intro rows
  induction rows with
  | nil => intro st h; simpa [processRows] using h
  | cons r rs ih =>
    intro st h
    simp only [processRows]
    rcases hpr : processRow st r with ⟨st2, out⟩
    have h2 : ∀ p ∈ st2.store, Q p := by
      have := processRow_store_pres Q hnew st r h
      rw [hpr] at this
      exact this
    cases out with
    | added ts b => exact ih st2 h2
    | skipped ts => exact ih st2 h2
    | failed e => exact h2

/-- Pointwise preservation through the per-file loop. -/
theorem processFiles_store_pres (Q : String × Sample → Prop)
    (hnew : ∀ ts i attrs2, i.length = AS7341_CHANNELS.length →
      attrsHas attrs2 "Timestamp" = true → Q (ts, ingestedSample i attrs2))
    (dt : String) :
    ∀ (files : List (List Row)) (st : IngestState), (∀ p ∈ st.store, Q p) →
      ∀ p ∈ (processFiles dt st files).1.store, Q p := by
  intro files
  induction files with
  | nil => intro st h; simpa [processFiles] using h
  | cons f fs ih =>
    intro st h
    simp only [processFiles]
    have hf : ∀ p ∈ (processFile dt st f).1.store, Q p := by
      unfold processFile
      split
      · exact processRows_store_pres Q hnew f st h
      · exact h
    rcases hpf : processFile dt st f with ⟨st2, outs, e⟩
    rw [hpf] at hf
    cases e with
    | none => exact ih st2 hf
    | some e0 => exact hf

/-- Pointwise preservation through a whole add_samples_from_csv call,
for any data type, whether or not an exception was raised. -/
theorem add_samples_store_pres (Q : String × Sample → Prop)
    (hnew : ∀ ts i attrs2, i.length = AS7341_CHANNELS.length →
      attrsHas attrs2 "Timestamp" = true → Q (ts, ingestedSample i attrs2))
    (files : List (List Row)) (file : Option H5File) (dt : String)
    (stdin : List String) (h : ∀ p ∈ storeOfFile file, Q p) :
    ∀ p ∈ (add_samples_from_csv files file dt stdin).file.samples.getD [], Q p := by
  simp only [add_samples_from_csv]
  rcases hpf : processFiles dt
      { store := storeOfFile file, added := [], meta := false, stdin := stdin }
      files with ⟨st, outs, e⟩
  have := processFiles_store_pres Q hnew dt files
      { store := storeOfFile file, added := [], meta := false, stdin := stdin } h
  rw [hpf] at this
  simpa using this

/-- One row keeps the store keys duplicate free: insertion happens only
under a key that was absent. -/
theorem processRow_nodup (st : IngestState) (r : Row)
    (h : (storeKeys st.store).Nodup) :
    (storeKeys (processRow st r).1.store).Nodup := by
  rcases processRow_store_cases st r with hc | ⟨ts, i, attrs2, _, hfresh, _, _, hc⟩
  · rw [hc]; exact h
  · rw [hc]
    have hmem : ts ∉ storeKeys st.store := (storeHasKey_false_iff _ _).mp hfresh
    simp only [storeKeys, List.map_append] at *
    simp [List.nodup_append, h, hmem]

/-- The per-row loop keeps the store keys duplicate free. -/
theorem processRows_nodup :
    ∀ (rows : List Row) (st : IngestState), (storeKeys st.store).Nodup →
      (storeKeys (processRows st rows).1.store).Nodup := by
  intro rows
  induction rows with
  | nil => intro st h; simpa [processRows] using h
  | cons r rs ih =>
    intro st h
    simp only [processRows]
    rcases hpr : processRow st r with ⟨st2, out⟩
    have h2 : (storeKeys st2.store).Nodup := by
      have := processRow_nodup st r h
      rw [hpr] at this
      exact this
    cases out with
    | added ts b => exact ih st2 h2
    | skipped ts => exact ih st2 h2
    | failed e => exact h2

/-- The per-file loop keeps the store keys duplicate free. -/
theorem processFiles_nodup (dt : String) :
    ∀ (files : List (List Row)) (st : IngestState), (storeKeys st.store).Nodup →
      (storeKeys (processFiles dt st files).1.store).Nodup := by
  intro files
  induction files with
  | nil => intro st h; simpa [processFiles] using h
  | cons f fs ih =>
    intro st h
    simp only [processFiles]
    have hf : (storeKeys (processFile dt st f).1.store).Nodup := by
      unfold processFile
      split
      · exact processRows_nodup f st h
      · exact h
    rcases hpf : processFile dt st f with ⟨st2, outs, e⟩
    rw [hpf] at hf
    cases e with
    | none => exact ih st2 hf
    | some e0 => exact hf

/-- When the per-row loop finishes without an exception, the keys it
appended to the store, the added_samples entries, and the
metadata_updates flag all read off the outcome trace. -/
theorem processRows_ret :
    ∀ (rows : List Row) (st st2 : IngestState) (outs : List RowOutcome),
      processRows st rows = (st2, outs, none) →
      storeKeys st2.store = storeKeys st.store ++ addedOfOutcomes outs ∧
      st2.added = st.added ++ addedOfOutcomes outs ∧
      st2.meta = (st.meta || anyMetaAdded outs) := by
  intro rows
  induction rows with
  | nil =>
    intro st st2 outs h
    simp only [processRows, Prod.mk.injEq] at h
    obtain ⟨h1, h2, _⟩ := h
    subst h1
    subst h2
    simp [addedOfOutcomes, anyMetaAdded]
  | cons r rs ih =>
    intro st st2 outs h
    simp only [processRows] at h
    rcases hpr : processRow st r with ⟨stm, out⟩
    rw [hpr] at h
    cases out with
    | failed e => simp at h
    | added ts b =>
      rcases hrs : processRows stm rs with ⟨st3, outs2, e2⟩
      simp only [hrs, Prod.mk.injEq] at h
      obtain ⟨h1, h2, h3⟩ := h
      subst h1
      subst h2
      subst h3
      obtain ⟨k1, k2, k3⟩ := ih _ _ _ hrs
      obtain ⟨a1, a2, a3, _⟩ := processRow_added st r stm ts b hpr
      refine ⟨?_, ?_, ?_⟩
      · rw [k1, a1]
        simp [addedOfOutcomes]
      · rw [k2, a2]
        simp [addedOfOutcomes]
      · rw [k3, a3]
        simp [anyMetaAdded, Bool.or_assoc]
    | skipped ts =>
      rcases hrs : processRows stm rs with ⟨st3, outs2, e2⟩
      simp only [hrs, Prod.mk.injEq] at h
      obtain ⟨h1, h2, h3⟩ := h
      subst h1
      subst h2
      subst h3
      have hst : stm = st := processRow_skipped st r stm ts hpr
      subst hst
      obtain ⟨k1, k2, k3⟩ := ih _ _ _ hrs
      refine ⟨?_, ?_, ?_⟩
      · rw [k1]; simp [addedOfOutcomes]
      · rw [k2]; simp [addedOfOutcomes]
      · rw [k3]; simp [anyMetaAdded]

/-- When the per-file loop finishes without an exception, the same
relations hold over the concatenated outcome trace. -/
theorem processFiles_ret (dt : String) :
    ∀ (files : List (List Row)) (st st2 : IngestState) (outs : List RowOutcome),
      processFiles dt st files = (st2, outs, none) →
      storeKeys st2.store = storeKeys st.store ++ addedOfOutcomes outs ∧
      st2.added = st.added ++ addedOfOutcomes outs ∧
      st2.meta = (st.meta || anyMetaAdded outs) := by
  intro files
  induction files with
  | nil =>
    intro st st2 outs h
    simp only [processFiles, Prod.mk.injEq] at h
    obtain ⟨h1, h2, _⟩ := h
    subst h1
    subst h2
    simp [addedOfOutcomes, anyMetaAdded]
  | cons f fs ih =>
    intro st st2 outs h
    simp only [processFiles] at h
    rcases hpf : processFile dt st f with ⟨stm, outs1, e1⟩
    rw [hpf] at h
    have hone : ∀ s2 o2, processFile dt st f = (s2, o2, none) →
        storeKeys s2.store = storeKeys st.store ++ addedOfOutcomes o2 ∧
        s2.added = st.added ++ addedOfOutcomes o2 ∧
        s2.meta = (st.meta || anyMetaAdded o2) := by
      intro s2 o2 hh
      unfold processFile at hh
      split at hh
      · exact processRows_ret f st s2 o2 hh
      · simp only [Prod.mk.injEq] at hh
        obtain ⟨hh1, hh2, _⟩ := hh
        subst hh1
        subst hh2
        simp [addedOfOutcomes, anyMetaAdded]
    cases e1 with
    | some e0 => simp at h
    | none =>
      rcases hfs : processFiles dt stm fs with ⟨st3, outs2, e2⟩
      simp only [hfs, Prod.mk.injEq] at h
      obtain ⟨h1, h2, h3⟩ := h
      subst h1
      subst h2
      subst h3
      obtain ⟨k1, k2, k3⟩ := ih _ _ _ hfs
      obtain ⟨a1, a2, a3⟩ := hone stm outs1 hpf
      refine ⟨?_, ?_, ?_⟩
      · rw [k1, a1]
        simp [addedOfOutcomes, List.filterMap_append]
      · rw [k2, a2]
        simp [addedOfOutcomes, List.filterMap_append]
      · rw [k3, a3]
        simp [anyMetaAdded, List.any_append, Bool.or_assoc]

/-- What a successful viewSample call renders: exactly the sample's own
wavelengths, its intensities, its full metadata, and both
spectrophotometer arrays whenever the sample holds that variant. -/
theorem viewSample_fields (s : Sample) (e : ViewEntry)
    (h : viewSample s = Except.ok e) :
    e.wavelengths = s.wavelengths ∧ e.intensities = s.intensities ∧
    e.metadata = s.attrs ∧
    (∀ a t, s.absorption = some a → s.transmission = some t →
      e.absorptionTransmission = some (a, t)) := by
  unfold viewSample at h
  split at h
  · exact absurd h (by simp)
  · simp only [Except.ok.injEq] at h
    subst h
    refine ⟨rfl, rfl, rfl, ?_⟩
    intro a t ha ht
    simp [ha, ht]

/-- Every sample in a store that view renders successfully has an entry
showing its wavelengths and whichever signal variant it holds. -/
theorem viewLoop_mem :
    ∀ (st : Store) (name : String) (s : Sample) (es : List ViewEntry),
      (name, s) ∈ st → viewLoop st = Except.ok es →
      ∃ e ∈ es, e.wavelengths = s.wavelengths ∧ e.intensities = s.intensities ∧
        e.metadata = s.attrs ∧
        (∀ a t, s.absorption = some a → s.transmission = some t →
          e.absorptionTransmission = some (a, t)) := by
  intro st
  induction st with
  | nil =>
    intro name s es hmem
    simp at hmem
  | cons p ps ih =>
    rcases p with ⟨pn, psample⟩
    intro name s es hmem h
    unfold viewLoop at h
    split at h
    · exact absurd h (by simp)
    · rename_i v hv
      split at h
      · exact absurd h (by simp)
      · rename_i vs hvs
        simp only [Except.ok.injEq] at h
        subst h
        rcases List.mem_cons.mp hmem with heq | hmem2
        · simp only [Prod.mk.injEq] at heq
          obtain ⟨_, hs⟩ := heq
          subst hs
          exact ⟨v, List.mem_cons_self v vs, viewSample_fields _ v hv⟩
        · obtain ⟨e, he, hf⟩ := ih name s vs hmem2 hvs
          exact ⟨e, List.mem_cons_of_mem v he, hf⟩

/-- Plotting one present key whose group holds Wavelengths and
Absorption yields exactly that series. -/
theorem plotLoop_single_ok (store : Store) (key : String) (s : Sample)
    (w a : List Value) (hg : storeGet store key = some s)
    (hw : s.wavelengths = some w) (ha : s.absorption = some a) :
    plotLoop store [key] =
      Except.ok [{ label := key, wavelengths := w, absorption := a }] := by
  simp [plotLoop, hg, hw, ha]

/-- Plotting one present key whose group has no Absorption dataset
raises KeyError, aborting the call. -/
theorem plotLoop_single_no_absorption (store : Store) (key : String)
    (s : Sample) (w : List Value) (hg : storeGet store key = some s)
    (hw : s.wavelengths = some w) (ha : s.absorption = none) :
    plotLoop store [key] = Except.error (Err.keyError "Absorption") := by
  simp [plotLoop, hg, hw, ha]

/-- Keys absent from the store are skipped: the plot loop behaves as if
they had not been requested at all. -/
theorem plotLoop_filter (store : Store) :
    ∀ selected : List String,
      plotLoop store selected =
        plotLoop store (selected.filter (fun k => storeHasKey store k)) := by
  intro selected
  induction selected with
  | nil => rfl
  | cons key rest ih =>
    by_cases hk : storeHasKey store key = true
    · rw [List.filter_cons_of_pos (by simpa using hk)]
      rcases hg : storeGet store key with _ | s
      · rw [storeGet_none_iff] at hg
        simp [hg] at hk
      · simp only [plotLoop, hg]
        cases hw : s.wavelengths with
        | none => rfl
        | some w =>
          cases ha : s.absorption with
          | none => rfl
          | some a => rw [ih]
    · rw [List.filter_cons_of_neg (by simpa using hk)]
      have hg : storeGet store key = none :=
        (storeGet_none_iff store key).mpr (by simpa using hk)
      simp only [plotLoop, hg]
      exact ih

/-- With any data type other than the string 3, the per-file loop does
nothing at all. -/
theorem processFiles_not3 (dt : String) (hdt : (dt == "3") = false) :
    ∀ (files : List (List Row)) (st : IngestState),
      processFiles dt st files = (st, [], none) := by
  intro files
  induction files with
  | nil => intro st; rfl
  | cons f fs ih =>
    intro st
    simp only [processFiles, processFile, hdt]
    simp [ih st]

/-- C1: a row whose derived timestamp key already exists as a group in
the store is skipped: the ingest state (store, added_samples,
metadata_updates, input) is completely unchanged by that row and the
key is not reported as inserted; moreover ingestion never produces two
samples under one key, so ingesting the same row twice yields exactly
one stored sample. -/
theorem c1_duplicate_row_is_skipped :
    (∀ (st : IngestState) (r : Row) (ts : String),
      r.time = some ts → storeHasKey st.store ts = true →
      processRow st r = (st, RowOutcome.skipped ts)) ∧
    (∀ (files : List (List Row)) (file : Option H5File) (dt : String)
        (stdin : List String),
      (storeKeys (storeOfFile file)).Nodup →
      (storeKeys
        ((add_samples_from_csv files file dt stdin).file.samples.getD [])).Nodup) := by
  constructor
  · intro st r ts htime hk
    simp [processRow, htime, hk]
  · intro files file dt stdin h
    simp only [add_samples_from_csv]
    rcases hpf : processFiles dt
        { store := storeOfFile file, added := [], meta := false, stdin := stdin }
        files with ⟨st, outs, e⟩
    have := processFiles_nodup dt files
        { store := storeOfFile file, added := [], meta := false, stdin := stdin } h
    rw [hpf] at this
    simpa using this

/-- Witness for C1: the duplicate-skip branch at a concrete state whose
store already holds key T1. -/
theorem c1_duplicate_row_is_skipped_witness :
    processRow exState (exRow "T1") = (exState, RowOutcome.skipped "T1") :=
  c1_duplicate_row_is_skipped.1 exState (exRow "T1") "T1" rfl rfl

/-- C2: the length invariant is preserved by every add_samples_from_csv
call: if every stored sample has signal arrays matching its wavelength
axis, so does every sample afterwards; the AS7341 wavelength table has
ten entries and every successfully extracted intensities array has ten
entries. -/
theorem c2_length_invariant :
    (∀ (files : List (List Row)) (file : Option H5File) (dt : String)
        (stdin : List String),
      (∀ p ∈ storeOfFile file, sampleLenOK p.2 = true) →
      ∀ p ∈ (add_samples_from_csv files file dt stdin).file.samples.getD [],
        sampleLenOK p.2 = true) ∧
    AS7341_WAVELENGTHS.length = 10 ∧
    (∀ (r : Row) (l : List Value), extractIntensities r = Except.ok l →
      l.length = 10) := by
  refine ⟨?_, rfl, ?_⟩
  · intro files file dt stdin h
    apply add_samples_store_pres _ ?_ files file dt stdin h
    intro ts i attrs2 hlen _
    simp [sampleLenOK, ingestedSample, hlen, AS7341_CHANNELS, AS7341_WAVELENGTHS]
  · intro r l h
    have := getChannels_ok_length r AS7341_CHANNELS l
      (by simpa [extractIntensities] using h)
    simpa [AS7341_CHANNELS] using this

/-- Witness for C2: the sample ingested from a concrete row in a
concrete run satisfies the length invariant. -/
theorem c2_length_invariant_witness : sampleLenOK (exSample "T1") = true :=
  c2_length_invariant.1 [[exRow "T1"]] (some { samples := some [] }) "3" ["n"]
    (by simp [storeOfFile]) ("T1", exSample "T1") (by decide)

/-- C4: atomicity of sample groups: when every sample group in the
store is fully written (wavelengths, a complete signal variant, and the
Timestamp attribute), every group after any add_samples_from_csv call
is fully written as well, whether or not the call raised an uncaught
exception part way. -/
theorem c4_sample_groups_fully_written (files : List (List Row))
    (file : Option H5File) (dt : String) (stdin : List String)
    (h : ∀ p ∈ storeOfFile file, sampleComplete p.2 = true) :
    ∀ p ∈ (add_samples_from_csv files file dt stdin).file.samples.getD [],
      sampleComplete p.2 = true := by
  apply add_samples_store_pres _ ?_ files file dt stdin h
  intro ts i attrs2 _ hts
  simp [sampleComplete, ingestedSample, hts]

/-- Witness for C4: a run that raises EOFError inside add_metadata
(answer y, then end of input) still leaves the one group it created
fully written. -/
theorem c4_sample_groups_fully_written_witness :
    sampleComplete (exSample "T1") = true :=
  c4_sample_groups_fully_written [[exRow "T1"]] (some { samples := some [] })
    "3" ["y"] (by simp [storeOfFile]) ("T1", exSample "T1") (by decide)

/-- Counterexample to C3: a two-row batch whose first row lacks every
channel column. The claim predicts the second row is still inserted and
no error reaches the caller; the code instead raises KeyError on the
first missing column, aborts the batch before the second row, inserts
nothing, and never returns an inserted-keys list. -/
theorem c3_partial_batch_counterexample :
    add_samples_from_csv [[exBadRow, exRow "T2"]] (some { samples := some [] })
      "3" ["n"] =
    { file := { samples := some [] }, added := [], metadataUpdates := false,
      stdinRest := ["n"], error := some (Err.keyError "415nm_F1") } := by
  decide

/-- C3 amended: a malformed row (missing time column, or missing
channel column on a fresh key) raises KeyError; the exception is not
caught, so it aborts the batch: the failing row contributes nothing and
no later row is processed, while rows before it stay inserted. -/
theorem c3_malformed_row_aborts_batch :
    (∀ (st : IngestState) (r : Row), r.time = none →
      processRow st r = (st, RowOutcome.failed (Err.keyError "time"))) ∧
    (∀ (st : IngestState) (r : Row) (ts : String) (e : Err),
      r.time = some ts → storeHasKey st.store ts = false →
      extractIntensities r = Except.error e →
      processRow st r = (st, RowOutcome.failed e)) ∧
    (∀ (st st2 : IngestState) (r : Row) (rs : List Row) (e : Err),
      processRow st r = (st2, RowOutcome.failed e) →
      processRows st (r :: rs) = (st2, [RowOutcome.failed e], some e)) := by
  refine ⟨?_, ?_, ?_⟩
  · intro st r h
    simp [processRow, h]
  · intro st r ts e h1 h2 h3
    simp [processRow, h1, h2, h3]
  · intro st st2 r rs e h
    simp [processRows, h]

/-- Witness for C3 amended: the channel KeyError branch and the abort
of the following row at concrete inputs. -/
theorem c3_malformed_row_aborts_batch_witness :
    processRows { store := [], added := [], meta := false, stdin := ["n"] }
      [exBadRow, exRow "T2"] =
    ({ store := [], added := [], meta := false, stdin := ["n"] },
      [RowOutcome.failed (Err.keyError "415nm_F1")],
      some (Err.keyError "415nm_F1")) :=
  c3_malformed_row_aborts_batch.2.2
    { store := [], added := [], meta := false, stdin := ["n"] }
    { store := [], added := [], meta := false, stdin := ["n"] }
    exBadRow [exRow "T2"] (Err.keyError "415nm_F1")
    (c3_malformed_row_aborts_batch.2.1
      { store := [], added := [], meta := false, stdin := ["n"] }
      exBadRow "B1" (Err.keyError "415nm_F1") rfl rfl rfl)

/-- Counterexample to C6: the user answers yes and then immediately
ends the loop with an empty key. Zero pairs are written (the attrs
mapping is unchanged), yet add_metadata returns true. -/
theorem c6_yes_no_pairs_counterexample :
    add_metadata [] ["y", ""] = ([], [], true, none) := by
  decide

/-- C6 amended: add_metadata returns true exactly when the stripped,
lowered answer is the letter y, regardless of how many pairs were then
entered; an empty key terminates the loop; each accepted key and value
pair is written to the attrs immediately, before the next prompt. -/
theorem c6_flag_is_consent_not_writes :
    (∀ (attrs : List (String × String)) (ans : String) (rest : List String),
      (add_metadata attrs (ans :: rest)).2.2.1 = (pyLower (pyStrip ans) == "y")) ∧
    (∀ (attrs : List (String × String)) (rest : List String),
      metadataLoop attrs ("" :: rest) = (attrs, rest, none)) ∧
    (∀ (attrs : List (String × String)) (k v : String) (rest : List String),
      (pyStrip k == "") = false →
      metadataLoop attrs (k :: v :: rest) =
        metadataLoop (attrsSet attrs (pyStrip k) (pyStrip v)) rest) := by
  refine ⟨?_, ?_, ?_⟩
  · intro attrs ans rest
    simp only [add_metadata]
    by_cases hy : (pyLower (pyStrip ans) == "y") = true
    · rcases hml : metadataLoop attrs rest with ⟨a2, r2, e2⟩
      simp [hy]
    · simp only [hy, if_neg]
      rw [Bool.not_eq_true] at hy
      simp [hy]
  · intro attrs rest
    have h0 : pyStrip "" = "" := rfl
    rw [metadataLoop.eq_def]
    simp [h0]
  · intro attrs k v rest h
    rw [metadataLoop.eq_def]
    simp [h]

/-- Witness for C6 amended: one accepted pair is written immediately at
concrete inputs. -/
theorem c6_flag_is_consent_not_writes_witness :
    metadataLoop [] ["colour", "white"] =
      metadataLoop (attrsSet [] (pyStrip "colour") (pyStrip "white")) [] :=
  c6_flag_is_consent_not_writes.2.2 [] "colour" "white" [] rfl

/-- The batch metadata flag reads as: some row was inserted with
add_metadata reporting an addition. -/
theorem anyMetaAdded_iff (outs : List RowOutcome) :
    anyMetaAdded outs = true ↔ ∃ ts, RowOutcome.added ts true ∈ outs := by
  simp only [anyMetaAdded, List.any_eq_true]
  constructor
  · rintro ⟨o, ho, hb⟩
    cases o with
    | added ts b =>
      cases b with
      | true => exact ⟨ts, ho⟩
      | false => simp at hb
    | skipped ts => simp at hb
    | failed e => simp at hb
  · rintro ⟨ts, hts⟩
    exact ⟨RowOutcome.added ts true, hts, rfl⟩

/-- C5: on a run with no uncaught exception, add_samples_from_csv
returns exactly the keys of the newly written samples in row-processing
order (the final store keys are the initial keys followed by the
returned list), and the metadata flag is true exactly when some
inserted row's add_metadata call reported an addition; in the concrete
T1, T2, T3 scenario with T2 already stored it returns the list T1, T3
and the store grows from one sample to three. -/
theorem c5_return_value_characterisation :
    (∀ (files : List (List Row)) (file : Option H5File) (dt : String)
        (stdin : List String),
      (add_samples_from_csv files file dt stdin).error = none →
      storeKeys ((add_samples_from_csv files file dt stdin).file.samples.getD []) =
        storeKeys (storeOfFile file) ++
          (add_samples_from_csv files file dt stdin).added ∧
      ((add_samples_from_csv files file dt stdin).metadataUpdates = true ↔
        ∃ ts, RowOutcome.added ts true ∈ ingestTrace files file dt stdin)) ∧
    ((add_samples_from_csv [[exRow "T1", exRow "T2", exRow "T3"]]
        (some { samples := some [("T2", exSample "T2")] }) "3" ["n", "n"]).added =
      ["T1", "T3"] ∧
      ((add_samples_from_csv [[exRow "T1", exRow "T2", exRow "T3"]]
        (some { samples := some [("T2", exSample "T2")] })
        "3" ["n", "n"]).file.samples.getD []).length = 1 + 2) := by
  constructor
  · intro files file dt stdin herr
    simp only [add_samples_from_csv, ingestTrace] at *
    rcases hpf : processFiles dt
        { store := storeOfFile file, added := [], meta := false, stdin := stdin }
        files with ⟨st, outs, e⟩
    rw [hpf] at herr
    simp only at herr
    subst herr
    obtain ⟨k1, k2, k3⟩ := processFiles_ret dt files _ _ _ hpf
    refine ⟨?_, ?_⟩
    · simp only [Option.getD_some]
      rw [k1, k2]
      simp
    · simp only
      rw [k3]
      simpa using anyMetaAdded_iff outs
  · exact ⟨by decide, by decide⟩

/-- Witness for C5: the characterisation applied to a concrete
exception-free run. -/
theorem c5_return_value_characterisation_witness :
    storeKeys ((add_samples_from_csv [[exRow "T1"]] (some { samples := some [] })
        "3" ["n"]).file.samples.getD []) =
      storeKeys (storeOfFile (some { samples := some [] })) ++
        (add_samples_from_csv [[exRow "T1"]] (some { samples := some [] })
          "3" ["n"]).added ∧
    ((add_samples_from_csv [[exRow "T1"]] (some { samples := some [] })
        "3" ["n"]).metadataUpdates = true ↔
      ∃ ts, RowOutcome.added ts true ∈
        ingestTrace [[exRow "T1"]] (some { samples := some [] }) "3" ["n"]) :=
  c5_return_value_characterisation.1 [[exRow "T1"]]
    (some { samples := some [] }) "3" ["n"] rfl

/-- Counterexample to C7: a store holding one AS7341 sample (key T1,
intensities variant, no Absorption dataset). The key is present, yet
the plot read path raises KeyError on the missing Absorption dataset
instead of rendering the variant the sample holds. -/
theorem c7_plot_intensities_counterexample :
    (storeGet [("T1", exSample "T1")] "T1").isSome = true ∧
    plot_samples (some { samples := some [("T1", exSample "T1")] }) ["T1"] =
      some (Except.error (Err.keyError "Absorption")) :=
  ⟨rfl, rfl⟩

/-- C7 amended: the view read path renders, for every sample present in
the store, its wavelengths together with whichever signal variant it
holds; the plot read path reads Wavelengths and Absorption
unconditionally, so it renders absorption-bearing samples and raises
KeyError for a present sample with no Absorption dataset, such as a
multi-channel intensities sample. -/
theorem c7_view_both_variants_plot_absorption_only :
    (∀ (st : Store) (name : String) (s : Sample) (es : List ViewEntry),
      (name, s) ∈ st → view_samples (some { samples := some st }) = Except.ok es →
      ∃ e ∈ es, e.wavelengths = s.wavelengths ∧ e.intensities = s.intensities ∧
        e.metadata = s.attrs ∧
        (∀ a t, s.absorption = some a → s.transmission = some t →
          e.absorptionTransmission = some (a, t))) ∧
    (∀ (st : Store) (key : String) (s : Sample) (w a : List Value),
      storeGet st key = some s → s.wavelengths = some w → s.absorption = some a →
      plot_samples (some { samples := some st }) [key] =
        some (Except.ok [{ label := key, wavelengths := w, absorption := a }])) ∧
    (∀ (st : Store) (key : String) (s : Sample) (w : List Value),
      storeGet st key = some s → s.wavelengths = some w → s.absorption = none →
      plot_samples (some { samples := some st }) [key] =
        some (Except.error (Err.keyError "Absorption"))) := by
  refine ⟨?_, ?_, ?_⟩
  · intro st name s es hmem hv
    exact viewLoop_mem st name s es hmem (by simpa [view_samples] using hv)
  · intro st key s w a hg hw ha
    simp only [plot_samples, Option.getD_some, Option.some.injEq]
    exact plotLoop_single_ok st key s w a hg hw ha
  · intro st key s w hg hw ha
    simp only [plot_samples, Option.getD_some, Option.some.injEq]
    exact plotLoop_single_no_absorption st key s w hg hw ha

/-- Witness for C7 amended: viewing a store holding the concrete
intensities sample T1 yields an entry carrying its wavelengths and its
intensities. -/
theorem c7_view_both_variants_plot_absorption_only_witness :
    ∃ e ∈ [{ timestamp := "T1", wavelengths := some AS7341_WAVELENGTHS,
             absorptionTransmission := none,
             intensities := some [1, 2, 3, 4, 5, 6, 7, 8, 9, 10],
             metadata := [("Timestamp", "T1")] : ViewEntry }],
      e.wavelengths = (exSample "T1").wavelengths ∧
      e.intensities = (exSample "T1").intensities ∧
      e.metadata = (exSample "T1").attrs ∧
      (∀ a t, (exSample "T1").absorption = some a →
        (exSample "T1").transmission = some t →
        e.absorptionTransmission = some (a, t)) :=
  c7_view_both_variants_plot_absorption_only.1 [("T1", exSample "T1")] "T1"
    (exSample "T1") _ (by decide) rfl

/-- C8: keys absent from the store are skipped with a warning and do
not affect the call: plotting a selection equals plotting the selection
restricted to the keys present in the store, so a missing key never
fails the call nor disturbs the processing of the present keys. -/
theorem c8_missing_keys_skipped (file : Option H5File) (selected : List String) :
    plot_samples file selected =
      plot_samples file
        (selected.filter (fun k => storeHasKey (storeOfFile file) k)) := by
  cases file with
  | none => rfl
  | some f =>
    simp only [plot_samples, storeOfFile]
    rw [← plotLoop_filter]

/-- C9: list_samples returns the empty sequence on a missing database
file or a container without a samples group, never an error, and
returns every sample key in enumeration order otherwise. -/
theorem c9_list_samples_total :
    list_samples none = [] ∧
    list_samples (some { samples := none }) = [] ∧
    (∀ st : Store, list_samples (some { samples := some st }) = storeKeys st) :=
  ⟨rfl, rfl, fun _ => rfl⟩

/-- C10: for any data type other than the string 3, add_samples_from_csv
stores nothing: the samples group is returned unchanged and the result
is the empty inserted-keys list with a false metadata flag and no
error, for every list of CSV files. -/
theorem c10_non_as7341_ingests_nothing (files : List (List Row))
    (file : Option H5File) (dt : String) (stdin : List String)
    (hdt : (dt == "3") = false) :
    add_samples_from_csv files file dt stdin =
      { file := { samples := some (storeOfFile file) }, added := [],
        metadataUpdates := false, stdinRest := stdin, error := none } := by
  simp only [add_samples_from_csv]
  rw [processFiles_not3 dt hdt files]

/-- Witness for C10: data type 1 (the RGB branch) with one well formed
CSV file ingests nothing. -/
theorem c10_non_as7341_ingests_nothing_witness :
    add_samples_from_csv [[exRow "T1"]] (some { samples := some [] }) "1" ["n"] =
      { file := { samples := some (storeOfFile (some { samples := some [] })) },
        added := [], metadataUpdates := false, stdinRest := ["n"],
        error := none } :=
  c10_non_as7341_ingests_nothing [[exRow "T1"]] (some { samples := some [] })
    "1" ["n"] rfl
